import Mathlib

/-!
Verification of the Activity Roster Service
(`src/app.py` route handlers and `src/database.py` model).

The service keeps one record per activity; each record carries an ordered
participant list bounded by `max_participants`.  `src/app.py` exposes three
operations: `get_activities`, `signup_for_activity`,
`unregister_from_activity`.  `src/database.py` stores the participant list
JSON-encoded in a string column (`participants_json`) with accessors
`get_participants` / `set_participants`, and seeds a fixed catalog in
`init_db`.

Two layers are embedded:
* the storage row (`ActivityRow`) with its JSON-encoded column, together with
  executable models of `json.dumps` / `json.loads` restricted to lists of
  strings, for the encode/decode round trip;
* the service state (`Activity`, a database as a list of rows) where
  `participants` is the decoded view of the JSON column — justified by the
  round-trip theorem — on which the route handlers are embedded.
-/

/-- An activity record as the handlers see it: the JSON column replaced by its
decoded view (see the `set_participants` / `get_participants` round trip
below).  The autoincrement `id` column is never read by any handler and is
omitted. -/
structure Activity where
  name : String
  description : String
  schedule : String
  max_participants : Nat
  participants : List String
deriving Repr, DecidableEq

/-- The database: one row per activity (`activities` table). -/
abbrev DB := List Activity

/-- `db.query(Activity).filter(Activity.name == activity_name).first()`:
first row whose `name` column matches, if any. -/
def findActivity (db : DB) (activity_name : String) : Option Activity :=
  db.find? (fun a => a.name == activity_name)

/-- `activity.set_participants(...)` followed by `db.commit()`: the row object
returned by `.first()` is mutated in place, so the first row matching the
name gets the new participant list; all other rows are untouched. -/
def setParticipantsInDb : DB → String → List String → DB
  | [], _, _ => []
  | a :: rest, activity_name, ps =>
    if a.name == activity_name then { a with participants := ps } :: rest
    else a :: setParticipantsInDb rest activity_name ps

/-- `fastapi.HTTPException(status_code=..., detail=...)`. -/
structure HTTPException where
  status_code : Nat
  detail : String
deriving Repr, DecidableEq

instance {ε α : Type} [DecidableEq ε] [DecidableEq α] : DecidableEq (Except ε α) := fun x y => by
  cases x with
  | ok a =>
    cases y with
    | ok b => exact decidable_of_iff (a = b) (by simp)
    | error b => exact .isFalse (by simp)
  | error a =>
    cases y with
    | ok b => exact .isFalse (by simp)
    | error b => exact decidable_of_iff (a = b) (by simp)

/-- The public view built by `Activity.to_dict` in `src/database.py`:
exactly the four fields `description`, `schedule`, `max_participants`,
`participants`. -/
structure ActivityView where
  description : String
  schedule : String
  max_participants : Nat
  participants : List String
deriving Repr, DecidableEq

/-- `Activity.to_dict` (`src/database.py`). -/
def Activity.to_dict (a : Activity) : ActivityView :=
  { description := a.description
    schedule := a.schedule
    max_participants := a.max_participants
    participants := a.participants }

/-- `GET /activities` (`get_activities` in `src/app.py`): a mapping from each
activity's name to its `to_dict` view.  Pure: the database is only read. -/
def get_activities (db : DB) : List (String × ActivityView) :=
  db.map (fun activity => (activity.name, activity.to_dict))

/-- `POST /activities/{activity_name}/signup` (`signup_for_activity` in
`src/app.py`).  Returns the updated database and success message, or the
raised `HTTPException`.  The checks appear in source order: existence,
duplicate membership, capacity. -/
def signup_for_activity (db : DB) (activity_name email : String) :
    Except HTTPException (DB × String) :=
  match findActivity db activity_name with
  | none => .error ⟨404, "Activity not found"⟩
  | some activity =>
    let participants := activity.participants
    if email ∈ participants then
      .error ⟨400, "Student is already signed up"⟩
    else if participants.length ≥ activity.max_participants then
      .error ⟨400, "Activity is at maximum capacity"⟩
    else
      .ok (setParticipantsInDb db activity_name (participants ++ [email]),
        "Signed up " ++ email ++ " for " ++ activity_name)

/-- `DELETE /activities/{activity_name}/unregister` (`unregister_from_activity`
in `src/app.py`).  `participants.remove(email)` removes the first occurrence,
modelled by `List.erase`. -/
def unregister_from_activity (db : DB) (activity_name email : String) :
    Except HTTPException (DB × String) :=
  match findActivity db activity_name with
  | none => .error ⟨404, "Activity not found"⟩
  | some activity =>
    let participants := activity.participants
    if email ∉ participants then
      .error ⟨400, "Student is not signed up for this activity"⟩
    else
      .ok (setParticipantsInDb db activity_name (participants.erase email),
        "Unregistered " ++ email ++ " from " ++ activity_name)

/-- A client request against the mutating endpoints. -/
inductive Op
  | enroll (activity_name email : String)
  | withdraw (activity_name email : String)
deriving Repr, DecidableEq

/-- The database state after serving one request: an `HTTPException` aborts
the handler before any write, leaving the database unchanged. -/
def applyOp (db : DB) : Op → DB
  | .enroll a e =>
    match signup_for_activity db a e with
    | .ok (db2, _) => db2
    | .error _ => db
  | .withdraw a e =>
    match unregister_from_activity db a e with
    | .ok (db2, _) => db2
    | .error _ => db

/-- The database state after serving a sequence of requests in order. -/
def run (db : DB) (ops : List Op) : DB :=
  ops.foldl applyOp db

/-- The seeded catalog from `init_db` (`src/database.py`): written on first
startup, when the `activities` table is empty. -/
def initialDB : DB :=
  [ { name := "Chess Club"
      description := "Learn strategies and compete in chess tournaments"
      schedule := "Fridays, 3:30 PM - 5:00 PM"
      max_participants := 12
      participants := ["michael@mergington.edu", "daniel@mergington.edu"] }
  , { name := "Programming Class"
      description := "Learn programming fundamentals and build software projects"
      schedule := "Tuesdays and Thursdays, 3:30 PM - 4:30 PM"
      max_participants := 20
      participants := ["emma@mergington.edu", "sophia@mergington.edu"] }
  , { name := "Gym Class"
      description := "Physical education and sports activities"
      schedule := "Mondays, Wednesdays, Fridays, 2:00 PM - 3:00 PM"
      max_participants := 30
      participants := ["john@mergington.edu", "olivia@mergington.edu"] }
  , { name := "Soccer Team"
      description := "Join the school soccer team and compete in matches"
      schedule := "Tuesdays and Thursdays, 4:00 PM - 5:30 PM"
      max_participants := 22
      participants := ["liam@mergington.edu", "noah@mergington.edu"] }
  , { name := "Basketball Team"
      description := "Practice and play basketball with the school team"
      schedule := "Wednesdays and Fridays, 3:30 PM - 5:00 PM"
      max_participants := 15
      participants := ["ava@mergington.edu", "mia@mergington.edu"] }
  , { name := "Art Club"
      description := "Explore your creativity through painting and drawing"
      schedule := "Thursdays, 3:30 PM - 5:00 PM"
      max_participants := 15
      participants := ["amelia@mergington.edu", "harper@mergington.edu"] }
  , { name := "Drama Club"
      description := "Act, direct, and produce plays and performances"
      schedule := "Mondays and Wednesdays, 4:00 PM - 5:30 PM"
      max_participants := 20
      participants := ["ella@mergington.edu", "scarlett@mergington.edu"] }
  , { name := "Math Club"
      description := "Solve challenging problems and participate in math competitions"
      schedule := "Tuesdays, 3:30 PM - 4:30 PM"
      max_participants := 10
      participants := ["james@mergington.edu", "benjamin@mergington.edu"] }
  , { name := "Debate Team"
      description := "Develop public speaking and argumentation skills"
      schedule := "Fridays, 4:00 PM - 5:30 PM"
      max_participants := 12
      participants := ["charlotte@mergington.edu", "henry@mergington.edu"] } ]

/-! ## Basic lemmas about lookup and write-back -/

theorem findActivity_mem {db : DB} {n : String} {act : Activity}
    (h : findActivity db n = some act) : act ∈ db :=
  List.mem_of_find?_eq_some h

theorem findActivity_name {db : DB} {n : String} {act : Activity}
    (h : findActivity db n = some act) : act.name = n := by
  simpa using List.find?_some h

theorem findActivity_cons_pos {a : Activity} {rest : DB} {n : String}
    (h : a.name = n) : findActivity (a :: rest) n = some a := by
  unfold findActivity
  rw [List.find?_cons_of_pos _ (by simpa using h)]

theorem findActivity_cons_neg {a : Activity} {rest : DB} {n : String}
    (h : ¬a.name = n) : findActivity (a :: rest) n = findActivity rest n := by
  unfold findActivity
  rw [List.find?_cons_of_neg _ (by simpa using h)]

theorem setParticipantsInDb_cons_pos {a : Activity} {rest : DB} {n : String}
    {ps : List String} (h : a.name = n) :
    setParticipantsInDb (a :: rest) n ps = { a with participants := ps } :: rest := by
  simp [setParticipantsInDb, h]

theorem setParticipantsInDb_cons_neg {a : Activity} {rest : DB} {n : String}
    {ps : List String} (h : ¬a.name = n) :
    setParticipantsInDb (a :: rest) n ps = a :: setParticipantsInDb rest n ps := by
  simp [setParticipantsInDb, h]

theorem findActivity_setParticipantsInDb (db : DB) (n : String) (ps : List String) :
    findActivity (setParticipantsInDb db n ps) n =
      (findActivity db n).map (fun a => { a with participants := ps }) := by
  induction db with
  | nil => rfl
  | cons a rest ih =>
    by_cases h : a.name = n
    · rw [setParticipantsInDb_cons_pos h, findActivity_cons_pos h,
        findActivity_cons_pos (show Activity.name { a with participants := ps } = n from h)]
      rfl
    · rw [setParticipantsInDb_cons_neg h, findActivity_cons_neg h, findActivity_cons_neg h, ih]

theorem mem_setParticipantsInDb {db : DB} {n : String} {act : Activity}
    (hf : findActivity db n = some act) (ps : List String) :
    ∀ b ∈ setParticipantsInDb db n ps, b ∈ db ∨ b = { act with participants := ps } := by
  induction db with
  | nil => simp [setParticipantsInDb]
  | cons a rest ih =>
    by_cases h : a.name = n
    · have ha : a = act := by
        have := hf
        rw [findActivity_cons_pos h] at this
        exact (Option.some_inj.mp this)
      intro b hb
      rw [setParticipantsInDb_cons_pos h] at hb
      rcases List.mem_cons.mp hb with hb1 | hb2
      · exact Or.inr (by rw [hb1, ha])
      · exact Or.inl (List.mem_cons_of_mem _ hb2)
    · have hf2 : findActivity rest n = some act := by
        have := hf
        rwa [findActivity_cons_neg h] at this
      intro b hb
      rw [setParticipantsInDb_cons_neg h] at hb
      rcases List.mem_cons.mp hb with hb1 | hb2
      · exact Or.inl (by rw [hb1]; exact List.mem_cons_self a rest)
      · rcases ih hf2 b hb2 with h1 | h2
        · exact Or.inl (List.mem_cons_of_mem _ h1)
        · exact Or.inr h2

/-! ## Characterisations of the two mutating handlers -/

theorem signup_ok {db : DB} {n e : String} {act : Activity}
    (hf : findActivity db n = some act) (hnot : e ∉ act.participants)
    (hcap : act.participants.length < act.max_participants) :
    signup_for_activity db n e =
      .ok (setParticipantsInDb db n (act.participants ++ [e]),
        "Signed up " ++ e ++ " for " ++ n) := by
  simp [signup_for_activity, hf, hnot, Nat.not_le.mpr hcap]

theorem signup_ok_inv {db db2 : DB} {n e msg : String}
    (h : signup_for_activity db n e = .ok (db2, msg)) :
    ∃ act, findActivity db n = some act ∧ e ∉ act.participants ∧
      act.participants.length < act.max_participants ∧
      db2 = setParticipantsInDb db n (act.participants ++ [e]) := by
  unfold signup_for_activity at h
  cases hf : findActivity db n with
  | none => rw [hf] at h; exact absurd h (by simp)
  | some act =>
    rw [hf] at h
    by_cases hm : e ∈ act.participants
    · simp [hm] at h
    · by_cases hc : act.participants.length ≥ act.max_participants
      · simp [hm, hc] at h
      · refine ⟨act, rfl, hm, Nat.not_le.mp hc, ?_⟩
        simp [hm, hc] at h
        exact h.1.symm

theorem unregister_ok {db : DB} {n e : String} {act : Activity}
    (hf : findActivity db n = some act) (hmem : e ∈ act.participants) :
    unregister_from_activity db n e =
      .ok (setParticipantsInDb db n (act.participants.erase e),
        "Unregistered " ++ e ++ " from " ++ n) := by
  simp [unregister_from_activity, hf, hmem]

theorem unregister_ok_inv {db db2 : DB} {n e msg : String}
    (h : unregister_from_activity db n e = .ok (db2, msg)) :
    ∃ act, findActivity db n = some act ∧ e ∈ act.participants ∧
      db2 = setParticipantsInDb db n (act.participants.erase e) := by
  unfold unregister_from_activity at h
  cases hf : findActivity db n with
  | none => rw [hf] at h; exact absurd h (by simp)
  | some act =>
    rw [hf] at h
    by_cases hm : e ∈ act.participants
    · refine ⟨act, rfl, hm, ?_⟩
      simp [hm] at h
      exact h.1.symm
    · simp [hm] at h

/-! ## Concrete states used to instantiate the theorems -/

/-- The seeded "Chess Club" record (first entry of `initialDB`). -/
def chessClub : Activity :=
  { name := "Chess Club"
    description := "Learn strategies and compete in chess tournaments"
    schedule := "Fridays, 3:30 PM - 5:00 PM"
    max_participants := 12
    participants := ["michael@mergington.edu", "daniel@mergington.edu"] }

/-- A one-slot activity already holding one participant. -/
def fullClub : Activity :=
  { name := "Full Club", description := "d", schedule := "s"
    max_participants := 1, participants := ["a@e.edu"] }

/-- A one-activity database whose single activity is at capacity. -/
def fullDB : DB := [fullClub]

/-! ## C1 -/

/-- C1: for an existing activity, a student not yet enrolled, and spare
capacity, signup succeeds and afterwards the student appears exactly once,
as the last element, with all prior entries unchanged and in order. -/
theorem enroll_appends_once_at_end {db : DB} {n e : String} {act : Activity}
    (hf : findActivity db n = some act) (hnot : e ∉ act.participants)
    (hcap : act.participants.length < act.max_participants) :
    ∃ db2, signup_for_activity db n e = .ok (db2, "Signed up " ++ e ++ " for " ++ n) ∧
      ∃ act2, findActivity db2 n = some act2 ∧
        act2.participants = act.participants ++ [e] ∧
        act2.participants.count e = 1 ∧
        act2.participants.getLast? = some e ∧
        act2.participants.take act.participants.length = act.participants := by
  refine ⟨setParticipantsInDb db n (act.participants ++ [e]), signup_ok hf hnot hcap, ?_⟩
  refine ⟨{ act with participants := act.participants ++ [e] }, ?_, rfl, ?_, ?_, ?_⟩
  · rw [findActivity_setParticipantsInDb, hf]; rfl
  · simp [List.count_append, List.count_eq_zero.mpr hnot]
  · simp
  · simp

/-- Witness for C1 at the seeded database. -/
theorem enroll_appends_once_at_end_witness :
    ∃ db2, signup_for_activity initialDB "Chess Club" "x@e.edu" =
        .ok (db2, "Signed up " ++ "x@e.edu" ++ " for " ++ "Chess Club") ∧
      ∃ act2, findActivity db2 "Chess Club" = some act2 ∧
        act2.participants = chessClub.participants ++ ["x@e.edu"] ∧
        act2.participants.count "x@e.edu" = 1 ∧
        act2.participants.getLast? = some "x@e.edu" ∧
        act2.participants.take chessClub.participants.length = chessClub.participants :=
  enroll_appends_once_at_end (by decide) (by decide) (by decide)

/-! ## C2 -/

/-- C2: for an existing activity and a student not yet enrolled, signup at
capacity (`len = max_participants`) fails with the capacity error and leaves
the database unchanged; the boundary is exact: whenever the post-append count
still fits (`len + 1 ≤ max_participants`) the signup succeeds. -/
theorem enroll_capacity_boundary {db : DB} {n e : String} {act : Activity}
    (hf : findActivity db n = some act) (hnot : e ∉ act.participants) :
    (act.participants.length = act.max_participants →
      signup_for_activity db n e = .error ⟨400, "Activity is at maximum capacity"⟩ ∧
      applyOp db (.enroll n e) = db) ∧
    (act.participants.length + 1 ≤ act.max_participants →
      signup_for_activity db n e =
        .ok (setParticipantsInDb db n (act.participants ++ [e]),
          "Signed up " ++ e ++ " for " ++ n)) := by
  constructor
  · intro hl
    have herr : signup_for_activity db n e = .error ⟨400, "Activity is at maximum capacity"⟩ := by
      simp [signup_for_activity, hf, hnot, hl]
    exact ⟨herr, by simp [applyOp, herr]⟩
  · intro hle
    exact signup_ok hf hnot (Nat.lt_of_succ_le hle)

/-- Witness for C2: a full one-slot activity rejects a new student. -/
theorem enroll_capacity_boundary_witness :
    (fullClub.participants.length = fullClub.max_participants →
      signup_for_activity fullDB "Full Club" "b@e.edu" =
        .error ⟨400, "Activity is at maximum capacity"⟩ ∧
      applyOp fullDB (.enroll "Full Club" "b@e.edu") = fullDB) ∧
    (fullClub.participants.length + 1 ≤ fullClub.max_participants →
      signup_for_activity fullDB "Full Club" "b@e.edu" =
        .ok (setParticipantsInDb fullDB "Full Club" (fullClub.participants ++ ["b@e.edu"]),
          "Signed up " ++ "b@e.edu" ++ " for " ++ "Full Club")) :=
  @enroll_capacity_boundary fullDB "Full Club" "b@e.edu" fullClub (by decide) (by decide)

/-! ## C3 -/

/-- C3: the duplicate-membership check runs before the capacity check, so a
duplicate signup on a full activity reports "already signed up", not the
capacity error. -/
theorem duplicate_reported_before_capacity {db : DB} {n e : String} {act : Activity}
    (hf : findActivity db n = some act) (hmem : e ∈ act.participants)
    (_hfull : act.participants.length = act.max_participants) :
    signup_for_activity db n e = .error ⟨400, "Student is already signed up"⟩ := by
  simp [signup_for_activity, hf, hmem]

/-- Witness for C3: duplicate signup on the full one-slot activity. -/
theorem duplicate_reported_before_capacity_witness :
    signup_for_activity fullDB "Full Club" "a@e.edu" =
      .error ⟨400, "Student is already signed up"⟩ :=
  @duplicate_reported_before_capacity fullDB "Full Club" "a@e.edu" fullClub
    (by decide) (by decide) (by decide)

/-! ## C6 -/

/-- C6: signup and unregister on a nonexistent activity name both fail with
the 404 error, for any student identifier, and leave the database unchanged
(no record is modified or created). -/
theorem nonexistent_activity_not_found {db : DB} {n e : String}
    (hf : findActivity db n = none) :
    signup_for_activity db n e = .error ⟨404, "Activity not found"⟩ ∧
    unregister_from_activity db n e = .error ⟨404, "Activity not found"⟩ ∧
    applyOp db (.enroll n e) = db ∧
    applyOp db (.withdraw n e) = db := by
  have h1 : signup_for_activity db n e = .error ⟨404, "Activity not found"⟩ := by
    simp [signup_for_activity, hf]
  have h2 : unregister_from_activity db n e = .error ⟨404, "Activity not found"⟩ := by
    simp [unregister_from_activity, hf]
  exact ⟨h1, h2, by simp [applyOp, h1], by simp [applyOp, h2]⟩

/-- Witness for C6 at the seeded database and an unknown club name. -/
theorem nonexistent_activity_not_found_witness :
    signup_for_activity initialDB "Unknown Club" "y@e.edu" =
      .error ⟨404, "Activity not found"⟩ ∧
    unregister_from_activity initialDB "Unknown Club" "y@e.edu" =
      .error ⟨404, "Activity not found"⟩ ∧
    applyOp initialDB (.enroll "Unknown Club" "y@e.edu") = initialDB ∧
    applyOp initialDB (.withdraw "Unknown Club" "y@e.edu") = initialDB :=
  nonexistent_activity_not_found (by decide)

/-! ## C10 -/

/-- C10: the handler never validates the student identifier: the empty string
enrolls like any other identifier when the activity exists, has spare
capacity, and does not already contain the empty string. -/
theorem enroll_empty_email {db : DB} {n : String} {act : Activity}
    (hf : findActivity db n = some act) (hnot : "" ∉ act.participants)
    (hcap : act.participants.length < act.max_participants) :
    signup_for_activity db n "" =
      .ok (setParticipantsInDb db n (act.participants ++ [""]),
        "Signed up " ++ "" ++ " for " ++ n) :=
  signup_ok hf hnot hcap

/-- Witness for C10 at the seeded database. -/
theorem enroll_empty_email_witness :
    signup_for_activity initialDB "Chess Club" "" =
      .ok (setParticipantsInDb initialDB "Chess Club" (chessClub.participants ++ [""]),
        "Signed up " ++ "" ++ " for " ++ "Chess Club") :=
  enroll_empty_email (by decide) (by decide) (by decide)

/-! ## C4 -/

/-- C4: withdrawing an enrolled student succeeds, afterwards the identifier
is absent, the remaining entries keep their relative order (the new roster is
a sublist of the old one), and an immediately repeated withdraw fails with
the Conflict error and changes nothing.  The no-duplicates hypothesis is the
data-model invariant established for every reachable state. -/
theorem withdraw_removes_then_conflicts {db : DB} {n e : String} {act : Activity}
    (hf : findActivity db n = some act) (hmem : e ∈ act.participants)
    (hnd : act.participants.Nodup) :
    ∃ db2, unregister_from_activity db n e =
        .ok (db2, "Unregistered " ++ e ++ " from " ++ n) ∧
      ∃ act2, findActivity db2 n = some act2 ∧
        act2.participants = act.participants.erase e ∧
        e ∉ act2.participants ∧
        act2.participants.Sublist act.participants ∧
        unregister_from_activity db2 n e =
          .error ⟨400, "Student is not signed up for this activity"⟩ ∧
        applyOp db2 (.withdraw n e) = db2 := by
  refine ⟨setParticipantsInDb db n (act.participants.erase e), unregister_ok hf hmem, ?_⟩
  have hf2 : findActivity (setParticipantsInDb db n (act.participants.erase e)) n =
      some { act with participants := act.participants.erase e } := by
    rw [findActivity_setParticipantsInDb, hf]; rfl
  have hne : e ∉ act.participants.erase e := by
    intro hx
    exact ((List.Nodup.mem_erase_iff hnd).mp hx).1 rfl
  have herr : unregister_from_activity
      (setParticipantsInDb db n (act.participants.erase e)) n e =
      .error ⟨400, "Student is not signed up for this activity"⟩ := by
    simp [unregister_from_activity, hf2, hne]
  exact ⟨_, hf2, rfl, hne, List.erase_sublist _ _, herr, by simp [applyOp, herr]⟩

/-- Witness for C4 at the seeded database. -/
theorem withdraw_removes_then_conflicts_witness :
    ∃ db2, unregister_from_activity initialDB "Chess Club" "michael@mergington.edu" =
        .ok (db2, "Unregistered " ++ "michael@mergington.edu" ++ " from " ++ "Chess Club") ∧
      ∃ act2, findActivity db2 "Chess Club" = some act2 ∧
        act2.participants = chessClub.participants.erase "michael@mergington.edu" ∧
        "michael@mergington.edu" ∉ act2.participants ∧
        act2.participants.Sublist chessClub.participants ∧
        unregister_from_activity db2 "Chess Club" "michael@mergington.edu" =
          .error ⟨400, "Student is not signed up for this activity"⟩ ∧
        applyOp db2 (.withdraw "Chess Club" "michael@mergington.edu") = db2 :=
  @withdraw_removes_then_conflicts initialDB "Chess Club" "michael@mergington.edu" chessClub
    (by decide) (by decide) (by decide)

/-! ## C5 -/

/-- The §3 data-model invariants: roster length bounded by capacity, no
duplicate identifiers. -/
def DBInvariant (db : DB) : Prop :=
  ∀ act ∈ db, act.participants.length ≤ act.max_participants ∧ act.participants.Nodup

instance : DecidablePred DBInvariant := fun db =>
  List.decidableBAll _ db

theorem applyOp_preserves_invariant {db : DB} (hinv : DBInvariant db) (op : Op) :
    DBInvariant (applyOp db op) := by
  cases op with
  | enroll a e =>
    cases h : signup_for_activity db a e with
    | error ex => simpa [applyOp, h] using hinv
    | ok res =>
      obtain ⟨db2, msg⟩ := res
      obtain ⟨act, hf, hnot, hcap, hdb2⟩ := signup_ok_inv h
      have hact := hinv act (findActivity_mem hf)
      intro b hb
      have hb2 : b ∈ setParticipantsInDb db a (act.participants ++ [e]) := by
        rw [← hdb2]
        simpa [applyOp, h] using hb
      rcases mem_setParticipantsInDb hf _ b hb2 with h1 | h2
      · exact hinv b h1
      · subst h2
        refine ⟨by simpa using hcap, ?_⟩
        rw [List.nodup_append]
        refine ⟨hact.2, List.nodup_singleton e, ?_⟩
        intro x hx hx2
        rw [List.mem_singleton] at hx2
        subst hx2
        exact hnot hx
  | withdraw a e =>
    cases h : unregister_from_activity db a e with
    | error ex => simpa [applyOp, h] using hinv
    | ok res =>
      obtain ⟨db2, msg⟩ := res
      obtain ⟨act, hf, hmem, hdb2⟩ := unregister_ok_inv h
      have hact := hinv act (findActivity_mem hf)
      intro b hb
      have hb2 : b ∈ setParticipantsInDb db a (act.participants.erase e) := by
        rw [← hdb2]
        simpa [applyOp, h] using hb
      rcases mem_setParticipantsInDb hf _ b hb2 with h1 | h2
      · exact hinv b h1
      · subst h2
        refine ⟨le_trans (List.Sublist.length_le (List.erase_sublist _ _)) hact.1, ?_⟩
        exact List.Nodup.sublist (List.erase_sublist _ _) hact.2

theorem run_preserves_invariant (ops : List Op) :
    ∀ db, DBInvariant db → DBInvariant (run db ops) := by
  induction ops with
  | nil => intro db h; simpa [run] using h
  | cons op rest ih =>
    intro db h
    have h2 := ih (applyOp db op) (applyOp_preserves_invariant h op)
    simpa [run] using h2

/-- C5: every state reachable from the seeded database by any sequence of
signup and unregister requests satisfies the data-model invariants: roster
length never exceeds `max_participants` and no identifier appears twice. -/
theorem reachable_states_satisfy_invariants (ops : List Op) :
    ∀ act ∈ run initialDB ops,
      act.participants.length ≤ act.max_participants ∧ act.participants.Nodup :=
  run_preserves_invariant ops initialDB (by unfold DBInvariant; decide)

/-- Witness for C5 at the empty request sequence and the seeded Chess Club
record. -/
theorem reachable_states_satisfy_invariants_witness :
    chessClub.participants.length ≤ chessClub.max_participants ∧ chessClub.participants.Nodup :=
  reachable_states_satisfy_invariants [] chessClub (by decide)

/-! ## C7 -/

/-- The seeded database after `x@e.edu` signs up for Chess Club. -/
def chessDB1 : DB :=
  setParticipantsInDb initialDB "Chess Club" (chessClub.participants ++ ["x@e.edu"])

/-- C7: the end-to-end scenario on the seeded database.  Chess Club starts
with capacity 12 and 2 participants; signup of `x@e.edu` succeeds and the
roster has 3 entries ending in `x@e.edu`; a repeated signup raises the
duplicate Conflict; withdrawing `x@e.edu` restores exactly the original
database; a repeated withdraw raises the not-signed-up Conflict; signup for
an unknown club raises the 404 error. -/
theorem seeded_scenario :
    chessClub.max_participants = 12 ∧
    chessClub.participants.length = 2 ∧
    findActivity initialDB "Chess Club" = some chessClub ∧
    signup_for_activity initialDB "Chess Club" "x@e.edu" =
      .ok (chessDB1, "Signed up x@e.edu for Chess Club") ∧
    findActivity chessDB1 "Chess Club" =
      some { chessClub with participants := chessClub.participants ++ ["x@e.edu"] } ∧
    (chessClub.participants ++ ["x@e.edu"]).length = 3 ∧
    (chessClub.participants ++ ["x@e.edu"]).getLast? = some "x@e.edu" ∧
    signup_for_activity chessDB1 "Chess Club" "x@e.edu" =
      .error ⟨400, "Student is already signed up"⟩ ∧
    unregister_from_activity chessDB1 "Chess Club" "x@e.edu" =
      .ok (initialDB, "Unregistered x@e.edu from Chess Club") ∧
    unregister_from_activity initialDB "Chess Club" "x@e.edu" =
      .error ⟨400, "Student is not signed up for this activity"⟩ ∧
    signup_for_activity initialDB "Unknown Club" "y@e.edu" =
      .error ⟨404, "Activity not found"⟩ := by
  decide

/-! ## C8 -/

/-- C8: the listing endpoint is a pure read: it returns one entry per stored
activity, keyed by name, whose view holds exactly the activity's
`description`, `schedule`, `max_participants` and `participants` fields, and
every returned entry arises from a stored activity. -/
theorem list_activities_exact_view (db : DB) :
    (get_activities db).length = db.length ∧
    (∀ act ∈ db,
      (act.name, ActivityView.mk act.description act.schedule
        act.max_participants act.participants) ∈ get_activities db) ∧
    (∀ p ∈ get_activities db, ∃ act, act ∈ db ∧ p = (act.name, act.to_dict)) := by
  refine ⟨by simp [get_activities], ?_, ?_⟩
  · intro act h
    have hm : (act.name, act.to_dict) ∈ get_activities db :=
      List.mem_map_of_mem _ h
    simpa [Activity.to_dict] using hm
  · intro p hp
    obtain ⟨act, hmem, heq⟩ := List.mem_map.mp hp
    exact ⟨act, hmem, heq.symm⟩

/-! ## JSON layer (`src/database.py`): the `participants_json` column

`Activity.set_participants` stores `json.dumps(participants)`;
`Activity.get_participants` returns `json.loads(self.participants_json)`.
The encoder below models `json.dumps` with its defaults (`ensure_ascii=True`,
item separator `", "`) on a list of strings; the decoder models `json.loads`
restricted to arrays of strings, returning `none` where `json.loads` raises.
One embedding boundary: a `\uXXXX` escape carrying a lone surrogate decodes
in Python to a lone-surrogate character, which no Lean `Char` represents;
the decoder rejects such input.  It never occurs in `json.dumps` output of
genuine strings. -/

/-- One lowercase hex digit, as `json.dumps` emits in `\uXXXX` escapes. -/
def hexDigit (n : Nat) : Char :=
  if n < 10 then Char.ofNat (48 + n) else Char.ofNat (87 + n)

/-- Four lowercase hex digits of a value below 0x10000. -/
def u16hex (n : Nat) : List Char :=
  [hexDigit (n / 4096 % 16), hexDigit (n / 256 % 16), hexDigit (n / 16 % 16), hexDigit (n % 16)]

/-- `json.dumps` encoding of one character of a string: the two-character
escapes for the quote, the backslash and the named control characters,
`\uXXXX` for every other character outside 0x20..0x7e (a surrogate pair
beyond 0xFFFF), and the character itself otherwise. -/
def encodeChar (c : Char) : List Char :=
  if c = '"' then ['\\', '"']
  else if c = '\\' then ['\\', '\\']
  else if c = Char.ofNat 8 then ['\\', 'b']
  else if c = Char.ofNat 9 then ['\\', 't']
  else if c = Char.ofNat 10 then ['\\', 'n']
  else if c = Char.ofNat 12 then ['\\', 'f']
  else if c = Char.ofNat 13 then ['\\', 'r']
  else if 0x20 ≤ c.toNat ∧ c.toNat ≤ 0x7e then [c]
  else if c.toNat < 0x10000 then '\\' :: 'u' :: u16hex c.toNat
  else
    ('\\' :: 'u' :: u16hex (0xd800 + (c.toNat - 0x10000) / 1024)) ++
      ('\\' :: 'u' :: u16hex (0xdc00 + (c.toNat - 0x10000) % 1024))

/-- `json.dumps` of one string: quoted, characters encoded. -/
def encodeJsonString (s : List Char) : List Char :=
  '"' :: ((s.map encodeChar).flatten ++ ['"'])

/-- `json.dumps` of a list of strings with the default `", "` separator:
the body of `Activity.set_participants`. -/
def json_dumps_strlist : List (List Char) → List Char
  | [] => ['[', ']']
  | s :: rest =>
    ('[' :: encodeJsonString s) ++
      ((rest.map (fun t => ',' :: ' ' :: encodeJsonString t)).flatten ++ [']'])

/-- Numeric value of one hex digit (either case), as `json.loads` accepts. -/
def hexVal (c : Char) : Option Nat :=
  if 48 ≤ c.toNat ∧ c.toNat ≤ 57 then some (c.toNat - 48)
  else if 97 ≤ c.toNat ∧ c.toNat ≤ 102 then some (c.toNat - 87)
  else if 65 ≤ c.toNat ∧ c.toNat ≤ 70 then some (c.toNat - 55)
  else none

/-- The two-character escapes accepted by `json.loads`. -/
def escChar (c : Char) : Option Char :=
  if c = '"' then some '"'
  else if c = '\\' then some '\\'
  else if c = '/' then some '/'
  else if c = 'b' then some (Char.ofNat 8)
  else if c = 'f' then some (Char.ofNat 12)
  else if c = 'n' then some (Char.ofNat 10)
  else if c = 'r' then some (Char.ofNat 13)
  else if c = 't' then some (Char.ofNat 9)
  else none

/-- Four hex digits and their value. -/
def parseHex4 : List Char → Option (Nat × List Char)
  | a :: b :: c :: d :: rest =>
    match hexVal a, hexVal b, hexVal c, hexVal d with
    | some x, some y, some z, some w => some (4096 * x + 256 * y + 16 * z + w, rest)
    | _, _, _, _ => none
  | _ => none

/-- A `\uXXXX` escape, positioned after `\u`: a high surrogate must pair
with a following `\uXXXX` low surrogate (a lone surrogate is rejected, see
the module note above). -/
def parseUEscape (l : List Char) : Option (Char × List Char) :=
  match parseHex4 l with
  | none => none
  | some (n, rest) =>
    if 0xd800 ≤ n ∧ n ≤ 0xdbff then
      match rest with
      | r1 :: r2 :: rest2 =>
        if r1 = '\\' ∧ r2 = 'u' then
          match parseHex4 rest2 with
          | some (m, rest3) =>
            if 0xdc00 ≤ m ∧ m ≤ 0xdfff then
              some (Char.ofNat (0x10000 + (n - 0xd800) * 1024 + (m - 0xdc00)), rest3)
            else none
          | none => none
        else none
      | _ => none
    else if 0xdc00 ≤ n ∧ n ≤ 0xdfff then none
    else some (Char.ofNat n, rest)

/-- `json.loads` scanning of a string body, positioned after the opening
quote: the decoded characters and the input following the closing quote.
Strict mode: raw control characters are rejected.  The fuel argument makes
the recursion structural; one unit is spent per decoded character, so any
fuel above the decoded length gives the parser's value. -/
def parseStringBody : Nat → List Char → Option (List Char × List Char)
  | 0, _ => none
  | _ + 1, [] => none
  | fuel + 1, c :: rest =>
    if c = '"' then some ([], rest)
    else if c = '\\' then
      match rest with
      | [] => none
      | e :: rest1 =>
        if e = 'u' then
          match parseUEscape rest1 with
          | some (dc, rest2) =>
            match parseStringBody fuel rest2 with
            | some (cs, rem) => some (dc :: cs, rem)
            | none => none
          | none => none
        else
          match escChar e with
          | some dc =>
            match parseStringBody fuel rest1 with
            | some (cs, rem) => some (dc :: cs, rem)
            | none => none
          | none => none
    else if c.toNat < 0x20 then none
    else
      match parseStringBody fuel rest with
      | some (cs, rem) => some (c :: cs, rem)
      | none => none

/-- The four whitespace characters `json.loads` skips between tokens. -/
def isJsonWs (c : Char) : Bool :=
  c == ' ' || c == Char.ofNat 9 || c == Char.ofNat 10 || c == Char.ofNat 13

/-- Skip leading JSON whitespace. -/
def skipWs : List Char → List Char
  | [] => []
  | c :: rest => if isJsonWs c then skipWs rest else c :: rest

/-- The comma-separated string elements of a JSON array, positioned at the
start of the first element; returns the elements and the input after the
closing bracket.  One unit of fuel per element. -/
def parseElems : Nat → List Char → Option (List (List Char) × List Char)
  | 0, _ => none
  | _ + 1, [] => none
  | fuel + 1, c :: rest =>
    if c = '"' then
      match parseStringBody (rest.length + 1) rest with
      | some (s, rem) =>
        match skipWs rem with
        | [] => none
        | c2 :: rem2 =>
          if c2 = ',' then
            match parseElems fuel (skipWs rem2) with
            | some (ss, rem3) => some (s :: ss, rem3)
            | none => none
          else if c2 = ']' then some ([s], rem2)
          else none
      | none => none
    else none

/-- `json.loads` restricted to arrays of strings: the body of
`Activity.get_participants`.  `none` models a raised `JSONDecodeError`. -/
def json_loads_strlist (l : List Char) : Option (List (List Char)) :=
  match skipWs l with
  | [] => none
  | c :: rest =>
    if c = '[' then
      match skipWs rest with
      | [] => none
      | c2 :: rest2 =>
        if c2 = ']' then (if skipWs rest2 = [] then some [] else none)
        else
          match parseElems (l.length + 1) (c2 :: rest2) with
          | some (ss, rem) => if skipWs rem = [] then some ss else none
          | none => none
    else none

/-- The stored row exactly as in `src/database.py`: `participants_json` is a
string column holding the JSON-encoded participant list (the autoincrement
`id` is again omitted). -/
structure ActivityRow where
  name : String
  description : String
  schedule : String
  max_participants : Nat
  participants_json : List Char
deriving Repr, DecidableEq

/-- `Activity.set_participants` (`src/database.py`): store the list as a
JSON string. -/
def ActivityRow.set_participants (row : ActivityRow) (participants : List String) : ActivityRow :=
  { row with participants_json := json_dumps_strlist (participants.map String.data) }

/-- `Activity.get_participants` (`src/database.py`): parse the JSON column;
`none` models a raised `json.JSONDecodeError`. -/
def ActivityRow.get_participants (row : ActivityRow) : Option (List String) :=
  (json_loads_strlist row.participants_json).map (fun ss => ss.map (fun s => String.mk s))

/-! ## Round trip of the JSON layer -/

theorem hexVal_hexDigit {k : Nat} (h : k < 16) : hexVal (hexDigit k) = some k := by
  interval_cases k <;> decide

theorem parseHex4_u16hex {n : Nat} (hn : n < 0x10000) (l : List Char) :
    parseHex4 (u16hex n ++ l) = some (n, l) := by
  have e1 : hexVal (hexDigit (n / 4096 % 16)) = some (n / 4096 % 16) :=
    hexVal_hexDigit (Nat.mod_lt _ (by norm_num))
  have e2 : hexVal (hexDigit (n / 256 % 16)) = some (n / 256 % 16) :=
    hexVal_hexDigit (Nat.mod_lt _ (by norm_num))
  have e3 : hexVal (hexDigit (n / 16 % 16)) = some (n / 16 % 16) :=
    hexVal_hexDigit (Nat.mod_lt _ (by norm_num))
  have e4 : hexVal (hexDigit (n % 16)) = some (n % 16) :=
    hexVal_hexDigit (Nat.mod_lt _ (by norm_num))
  simp [u16hex, parseHex4, e1, e2, e3, e4]
  omega

theorem parseUEscape_u16hex {n : Nat} (hn : n < 0x10000)
    (hsur : ¬(0xd800 ≤ n ∧ n ≤ 0xdfff)) (l : List Char) :
    parseUEscape (u16hex n ++ l) = some (Char.ofNat n, l) := by
  have hA : ¬(0xd800 ≤ n ∧ n ≤ 0xdbff) := by omega
  have hB : ¬(0xdc00 ≤ n ∧ n ≤ 0xdfff) := by omega
  simp [parseUEscape, parseHex4_u16hex hn, hA, hB]

theorem parseUEscape_surrogates {v : Nat} (hv : v < 0x100000) (l : List Char) :
    parseUEscape (u16hex (0xd800 + v / 1024) ++
        ('\\' :: 'u' :: (u16hex (0xdc00 + v % 1024) ++ l))) =
      some (Char.ofNat (0x10000 + v), l) := by
  have hn : 0xd800 + v / 1024 < 0x10000 := by omega
  have hm : 0xdc00 + v % 1024 < 0x10000 := by omega
  have hA : 0xd800 ≤ 0xd800 + v / 1024 ∧ 0xd800 + v / 1024 ≤ 0xdbff := by
    constructor <;> omega
  have hB : 0xdc00 ≤ 0xdc00 + v % 1024 ∧ 0xdc00 + v % 1024 ≤ 0xdfff := by
    constructor <;> omega
  simp [parseUEscape, parseHex4_u16hex hn, parseHex4_u16hex hm, hA, hB]
  congr 1
  omega

theorem parse_twoCharEscape {e dc : Char} (he : ¬e = 'u') (hesc : escChar e = some dc)
    (fuel : Nat) (l : List Char) :
    parseStringBody (fuel + 1) ('\\' :: e :: l) =
      (parseStringBody fuel l).map (fun p => (dc :: p.1, p.2)) := by
  cases hp : parseStringBody fuel l with
  | none => simp [parseStringBody, he, hesc, hp]
  | some p =>
    obtain ⟨cs, rem⟩ := p
    simp [parseStringBody, he, hesc, hp]

theorem parse_unicodeEscape {X l : List Char} {dc : Char} (fuel : Nat)
    (hu : parseUEscape X = some (dc, l)) :
    parseStringBody (fuel + 1) ('\\' :: 'u' :: X) =
      (parseStringBody fuel l).map (fun p => (dc :: p.1, p.2)) := by
  cases hp : parseStringBody fuel l with
  | none => simp [parseStringBody, hu, hp]
  | some p =>
    obtain ⟨cs, rem⟩ := p
    simp [parseStringBody, hu, hp]

theorem parse_encodeChar (c : Char) (fuel : Nat) (l : List Char) :
    parseStringBody (fuel + 1) (encodeChar c ++ l) =
      (parseStringBody fuel l).map (fun p => (c :: p.1, p.2)) := by
  by_cases h1 : c = '"'
  · subst h1
    rw [show encodeChar '"' = ['\\', '"'] from by decide]
    exact parse_twoCharEscape (by decide) (by decide) fuel l
  by_cases h2 : c = '\\'
  · subst h2
    rw [show encodeChar '\\' = ['\\', '\\'] from by decide]
    exact parse_twoCharEscape (by decide) (by decide) fuel l
  by_cases h3 : c = Char.ofNat 8
  · subst h3
    rw [show encodeChar (Char.ofNat 8) = ['\\', 'b'] from by decide]
    exact parse_twoCharEscape (by decide) (by decide) fuel l
  by_cases h4 : c = Char.ofNat 9
  · subst h4
    rw [show encodeChar (Char.ofNat 9) = ['\\', 't'] from by decide]
    exact parse_twoCharEscape (by decide) (by decide) fuel l
  by_cases h5 : c = Char.ofNat 10
  · subst h5
    rw [show encodeChar (Char.ofNat 10) = ['\\', 'n'] from by decide]
    exact parse_twoCharEscape (by decide) (by decide) fuel l
  by_cases h6 : c = Char.ofNat 12
  · subst h6
    rw [show encodeChar (Char.ofNat 12) = ['\\', 'f'] from by decide]
    exact parse_twoCharEscape (by decide) (by decide) fuel l
  by_cases h7 : c = Char.ofNat 13
  · subst h7
    rw [show encodeChar (Char.ofNat 13) = ['\\', 'r'] from by decide]
    exact parse_twoCharEscape (by decide) (by decide) fuel l
  by_cases h8 : 0x20 ≤ c.toNat ∧ c.toNat ≤ 0x7e
  · rw [show encodeChar c = [c] from by simp [encodeChar, h1, h2, h3, h4, h5, h6, h7, h8]]
    have hq : ¬(c.toNat < 0x20) := by omega
    cases hp : parseStringBody fuel l with
    | none => simp [parseStringBody, h1, h2, hq, hp]
    | some p =>
      obtain ⟨cs, rem⟩ := p
      simp [parseStringBody, h1, h2, hq, hp]
  have hval : c.toNat < 0xd800 ∨ (0xdfff < c.toNat ∧ c.toNat < 0x110000) := c.valid
  by_cases h9 : c.toNat < 0x10000
  · have hsur : ¬(0xd800 ≤ c.toNat ∧ c.toNat ≤ 0xdfff) := by omega
    rw [show encodeChar c = '\\' :: 'u' :: u16hex c.toNat from by
      simp [encodeChar, h1, h2, h3, h4, h5, h6, h7, h8, h9]]
    rw [show ('\\' :: 'u' :: u16hex c.toNat) ++ l = '\\' :: 'u' :: (u16hex c.toNat ++ l) from by
      simp]
    rw [parse_unicodeEscape fuel (parseUEscape_u16hex h9 hsur l), Char.ofNat_toNat]
  · have hvlt : c.toNat < 0x110000 := by omega
    have hvb : c.toNat - 0x10000 < 0x100000 := by omega
    rw [show encodeChar c =
        ('\\' :: 'u' :: u16hex (0xd800 + (c.toNat - 0x10000) / 1024)) ++
          ('\\' :: 'u' :: u16hex (0xdc00 + (c.toNat - 0x10000) % 1024)) from by
      simp [encodeChar, h1, h2, h3, h4, h5, h6, h7, h8, h9]]
    rw [show (('\\' :: 'u' :: u16hex (0xd800 + (c.toNat - 0x10000) / 1024)) ++
        ('\\' :: 'u' :: u16hex (0xdc00 + (c.toNat - 0x10000) % 1024))) ++ l =
        '\\' :: 'u' :: (u16hex (0xd800 + (c.toNat - 0x10000) / 1024) ++
          ('\\' :: 'u' :: (u16hex (0xdc00 + (c.toNat - 0x10000) % 1024) ++ l))) from by
      simp]
    rw [parse_unicodeEscape fuel (parseUEscape_surrogates hvb l)]
    rw [show Char.ofNat (0x10000 + (c.toNat - 0x10000)) = c from by
      rw [show 0x10000 + (c.toNat - 0x10000) = c.toNat from by omega]
      exact Char.ofNat_toNat c]

theorem one_le_encodeChar_length (c : Char) : 1 ≤ (encodeChar c).length := by
  unfold encodeChar
  split_ifs <;> simp [u16hex]

theorem length_le_flatten_length {α : Type} (f : α → List Char)
    (h : ∀ t, 1 ≤ (f t).length) (ss : List α) :
    ss.length ≤ ((ss.map f).flatten).length := by
  induction ss with
  | nil => simp
  | cons t ss ih =>
    have := h t
    simp only [List.map_cons, List.flatten_cons, List.length_append, List.length_cons]
    omega

theorem parse_encodeString (s : List Char) : ∀ (fuel : Nat) (l : List Char),
    s.length < fuel →
    parseStringBody fuel ((s.map encodeChar).flatten ++ ('"' :: l)) = some (s, l) := by
  induction s with
  | nil =>
    intro fuel l h
    cases fuel with
    | zero => omega
    | succ f => simp [parseStringBody]
  | cons c s ih =>
    intro fuel l h
    cases fuel with
    | zero => omega
    | succ f =>
      have hlen : s.length < f := by
        simp only [List.length_cons] at h
        omega
      rw [List.map_cons, List.flatten_cons, List.append_assoc,
        parse_encodeChar c f _, ih f l hlen]
      rfl

theorem skipWs_not_ws {c : Char} (h : isJsonWs c = false) (l : List Char) :
    skipWs (c :: l) = c :: l := by
  simp [skipWs, h]

theorem skipWs_space (l : List Char) : skipWs (' ' :: l) = skipWs l := by
  simp [skipWs, isJsonWs]

theorem encodeJsonString_append (s R : List Char) :
    encodeJsonString s ++ R = '"' :: ((s.map encodeChar).flatten ++ ('"' :: R)) := by
  simp [encodeJsonString]

theorem parseElems_step {B s rem : List Char} {f : Nat}
    (hps : parseStringBody (B.length + 1) B = some (s, rem)) :
    parseElems (f + 1) ('"' :: B) =
      match skipWs rem with
      | [] => none
      | c2 :: rem2 =>
        if c2 = ',' then
          match parseElems f (skipWs rem2) with
          | some (ss, rem3) => some (s :: ss, rem3)
          | none => none
        else if c2 = ']' then some ([s], rem2)
        else none := by
  simp [parseElems, hps]

theorem parseElems_encode (ss : List (List Char)) : ∀ (s : List Char) (fuel : Nat) (l : List Char),
    ss.length < fuel →
    parseElems fuel (encodeJsonString s ++
        ((ss.map (fun t => ',' :: ' ' :: encodeJsonString t)).flatten ++ (']' :: l))) =
      some (s :: ss, l) := by
  induction ss with
  | nil =>
    intro s fuel l h
    cases fuel with
    | zero => omega
    | succ f =>
      rw [List.map_nil, List.flatten_nil, List.nil_append, encodeJsonString_append]
      have hflat := length_le_flatten_length encodeChar one_le_encodeChar_length s
      have hlen : s.length < ((s.map encodeChar).flatten ++ ('"' :: (']' :: l))).length + 1 := by
        simp only [List.length_append, List.length_cons]
        omega
      have hps := parse_encodeString s
        (((s.map encodeChar).flatten ++ ('"' :: (']' :: l))).length + 1) (']' :: l) hlen
      have hsk : skipWs (']' :: l) = ']' :: l := skipWs_not_ws (by decide) l
      rw [parseElems_step hps]
      simp [hsk]
  | cons t ss ih =>
    intro s fuel l h
    cases fuel with
    | zero => omega
    | succ f =>
      have hlen2 : ss.length < f := by
        simp only [List.length_cons] at h
        omega
      rw [List.map_cons, List.flatten_cons, List.append_assoc, List.cons_append,
        List.cons_append, encodeJsonString_append]
      have hflat := length_le_flatten_length encodeChar one_le_encodeChar_length s
      have hlen : s.length < ((s.map encodeChar).flatten ++
          ('"' :: (',' :: (' ' :: (encodeJsonString t ++
            ((ss.map (fun t => ',' :: ' ' :: encodeJsonString t)).flatten ++
              (']' :: l))))))).length + 1 := by
        simp only [List.length_append, List.length_cons]
        omega
      have hps := parse_encodeString s
        (((s.map encodeChar).flatten ++
          ('"' :: (',' :: (' ' :: (encodeJsonString t ++
            ((ss.map (fun t => ',' :: ' ' :: encodeJsonString t)).flatten ++
              (']' :: l))))))).length + 1)
        (',' :: (' ' :: (encodeJsonString t ++
          ((ss.map (fun t => ',' :: ' ' :: encodeJsonString t)).flatten ++ (']' :: l)))))
        hlen
      have hskT : skipWs (encodeJsonString t ++
          ((ss.map (fun t => ',' :: ' ' :: encodeJsonString t)).flatten ++ (']' :: l))) =
          encodeJsonString t ++
            ((ss.map (fun t => ',' :: ' ' :: encodeJsonString t)).flatten ++ (']' :: l)) := by
        rw [encodeJsonString_append]
        exact skipWs_not_ws (by decide) _
      have hih := ih t f l hlen2
      rw [parseElems_step hps]
      simp [skipWs_not_ws (show isJsonWs ',' = false from by decide), skipWs_space, hskT, hih]

theorem json_strlist_round_trip (ss : List (List Char)) :
    json_loads_strlist (json_dumps_strlist ss) = some ss := by
  cases ss with
  | nil => decide
  | cons s rest =>
    have hXform : json_dumps_strlist (s :: rest) =
        '[' :: (encodeJsonString s ++
          ((rest.map (fun t => ',' :: ' ' :: encodeJsonString t)).flatten ++ (']' :: []))) := by
      simp [json_dumps_strlist]
    have hflat2 := length_le_flatten_length (fun t => ',' :: ' ' :: encodeJsonString t)
      (fun t => by simp) rest
    have hfuel : rest.length < (json_dumps_strlist (s :: rest)).length + 1 := by
      rw [hXform]
      simp only [List.length_cons, List.length_append]
      omega
    have hE := parseElems_encode rest s ((json_dumps_strlist (s :: rest)).length + 1) [] hfuel
    rw [encodeJsonString_append] at hE
    have hsk1 : skipWs (json_dumps_strlist (s :: rest)) =
        '[' :: (encodeJsonString s ++
          ((rest.map (fun t => ',' :: ' ' :: encodeJsonString t)).flatten ++ (']' :: []))) := by
      rw [hXform]
      exact skipWs_not_ws (by decide) _
    have hsk2 : skipWs (encodeJsonString s ++
        ((rest.map (fun t => ',' :: ' ' :: encodeJsonString t)).flatten ++ (']' :: []))) =
        '"' :: ((s.map encodeChar).flatten ++
          ('"' :: ((rest.map (fun t => ',' :: ' ' :: encodeJsonString t)).flatten ++ (']' :: [])))) := by
      rw [encodeJsonString_append]
      exact skipWs_not_ws (by decide) _
    have hsk3 : skipWs ([] : List Char) = [] := rfl
    unfold json_loads_strlist
    rw [hsk1]
    simp only [encodeJsonString_append] at *
    simp [hsk2, hE, hsk3]

/-! ## C9 -/

/-- C9: storing any participant list with `set_participants` and reading it
back with `get_participants` returns the original list: the JSON
encode/decode of the `participants_json` column is a round trip. -/
theorem set_get_participants_round_trip (row : ActivityRow) (participants : List String) :
    (row.set_participants participants).get_participants = some participants := by
  unfold ActivityRow.set_participants ActivityRow.get_participants
  simp only [json_strlist_round_trip, Option.map]
  have hcomp : ((fun s => String.mk s) ∘ String.data) = (id : String → String) :=
    funext fun s => rfl
  rw [List.map_map, hcomp, List.map_id]
